import Mathlib

/-!
Verification of the idempotent market-data ingestion pipeline of
`market_data_backend_platform` against its natural-language specification.

The Python source is shallowly embedded:

* `MDB.MarketPrice` embeds the ORM row `models/market_price.py::MarketPrice`
  restricted to the columns the pipeline logic reads
  (`instrument_id`, `timestamp`, OHLC prices, `volume`); the database is a
  list of such rows, and the schema-level uniqueness constraint
  `uq_instrument_timestamp` on `(instrument_id, timestamp)` is embedded in
  `MDB.bulk_create`, which fails with `integrityError` exactly when the
  committed batch would violate it.
* Python `Decimal` price values are embedded as `Rat`; timestamps
  (timezone-aware instants obtained from `datetime.fromtimestamp` on an
  epoch number) are embedded as the underlying epoch number, a `Rat`.
* Fallible Python code is embedded in `Except PyExc`, with one `PyExc`
  constructor per Python exception class the embedded code can raise.
-/

namespace MDB

/-- Python exception classes reachable from the embedded code.  The names
mirror the Python classes: `attributeError` is `AttributeError` (raised by
`x.get(...)` when `x` is not a dict), `indexError`/`keyError`/`typeError`
are the three classes caught by the parse `try`/`except` in
`etl/clients/yahoo.py`, `jsonDecodeError` is `json.JSONDecodeError` raised
by `response.json()` on a non-JSON body, `valueError` is raised by `int()`
on a non-numeric string, `invalidOperation` is `decimal.InvalidOperation`
raised by `Decimal(...)` on a non-numeric literal, `integrityError` is
`sqlalchemy.exc.IntegrityError` raised by `session.commit()` on a
uniqueness-constraint violation, and `validationError` is pydantic's
`ValidationError` raised by schema field constraints. -/
inductive PyExc where
  | attributeError
  | indexError
  | keyError
  | typeError
  | valueError
  | invalidOperation
  | jsonDecodeError
  | integrityError
  | validationError
deriving DecidableEq, Repr

/-- One row of the `market_prices` table
(`models/market_price.py::MarketPrice`), restricted to the columns the
ingestion pipeline reads.  Prices are `Numeric(18, 8)` decimals, embedded
as `Rat`; `timestamp` is the epoch instant, embedded as `Rat`; `volume` is
an unbounded Python int, embedded as `Int`.  The generated `id` and the
`created_at`/`updated_at` audit columns play no role in the pipeline logic
and are omitted. -/
structure MarketPrice where
  instrument_id : Nat
  timestamp : Rat
  «open» : Rat
  high : Rat
  low : Rat
  close : Rat
  volume : Int
deriving DecidableEq, Repr

/-- The `market_prices` table: the list of committed rows, in insertion
order. -/
abbrev DB := List MarketPrice

/-- Two rows collide on the `uq_instrument_timestamp` uniqueness
constraint: same `(instrument_id, timestamp)` pair. -/
def sameKey (a b : MarketPrice) : Bool :=
  decide (a.instrument_id = b.instrument_id ∧ a.timestamp = b.timestamp)

/-- A batch contains two distinct positions whose rows collide on the
uniqueness key. -/
def hasDupKey : List MarketPrice → Bool
  | [] => false
  | p :: rest => rest.any (sameKey p) || hasDupKey rest

/-- The committed batch `prices` violates `uq_instrument_timestamp`
against the stored rows `db` or within itself. -/
def violatesUnique (db : DB) (prices : List MarketPrice) : Bool :=
  prices.any (fun p => db.any (fun r => sameKey r p)) || hasDupKey prices

/-- `repositories/market_price.py::MarketPriceRepository.bulk_create`:
`session.add_all(prices); session.commit()`.  The commit enforces the
schema's uniqueness constraint: if any added row collides with a stored
row or with another added row, the commit raises `IntegrityError` and the
transaction rolls back (no rows persist); otherwise all rows persist and
the same instances are returned.  There is no `try`/`except` in the
source, so the error propagates to the caller. -/
def bulk_create (db : DB) (prices : List MarketPrice) :
    Except PyExc (DB × List MarketPrice) :=
  if violatesUnique db prices then .error .integrityError
  else .ok (db ++ prices, prices)

/-- `repositories/market_price.py::MarketPriceRepository.get_existing_timestamps`:
returns the set of candidate timestamps already stored for the given
instrument.  An empty candidate list short-circuits to the empty set
without querying. -/
def get_existing_timestamps (db : DB) (instrument_id : Nat)
    (timestamps : List Rat) : Finset Rat :=
  if timestamps = [] then ∅
  else
    ((db.filter (fun r =>
        decide (r.instrument_id = instrument_id ∧ r.timestamp ∈ timestamps))).map
      (fun r => r.timestamp)).toFinset

/-- `repositories/market_price.py::MarketPriceRepository.bulk_create_new`:
the idempotent insert.  Takes the first record's `instrument_id`, looks up
which of the batch's timestamps are already stored for that instrument,
filters those records out, and commits the remainder via `bulk_create`
(returning `[]` without a write when the batch or the remainder is
empty). -/
def bulk_create_new (db : DB) (prices : List MarketPrice) :
    Except PyExc (DB × List MarketPrice) :=
  match prices with
  | [] => .ok (db, [])
  | p0 :: _ =>
    let instrument_id := p0.instrument_id
    let timestamps := prices.map (fun p => p.timestamp)
    let existing := get_existing_timestamps db instrument_id timestamps
    let new_prices := prices.filter (fun p => decide (p.timestamp ∉ existing))
    if new_prices = [] then .ok (db, [])
    else bulk_create db new_prices

/-- Number of stored rows for one instrument. -/
def countFor (db : DB) (instrument_id : Nat) : Nat :=
  (db.filter (fun r => decide (r.instrument_id = instrument_id))).length

/-! ## JSON values and the Python operations the client applies to them

`etl/clients/yahoo.py` traverses the provider's parsed JSON with `dict.get`
with defaults, integer indexing, truthiness tests, iteration,
`Decimal(str(...))` and `int(...)`.  JSON numbers are embedded as the `Rat`
denoted by the number literal (Python's `str` of a parsed float is its
shortest round-trip representation, so `Decimal(str(x))` recovers the
written decimal literal for the provider payloads modelled here). -/

/-- A parsed JSON value.  Python `None` (JSON `null`) is `jnull`. -/
inductive JVal where
  | jnull
  | jbool (b : Bool)
  | jnum (q : Rat)
  | jstr (s : String)
  | jarr (xs : List JVal)
  | jobj (fields : List (String × JVal))
deriving Repr

/-- Python truthiness of a JSON value: `None`, `False`, zero, and empty
strings/lists/dicts are falsy. -/
def truthy : JVal → Bool
  | .jnull => false
  | .jbool b => b
  | .jnum q => decide (q ≠ 0)
  | .jstr s => !s.isEmpty
  | .jarr xs => !xs.isEmpty
  | .jobj fs => !fs.isEmpty

/-- `x.get(key, default)`: dict lookup with a default.  On a non-dict
receiver Python raises `AttributeError` (lists, strings, numbers and
`None` have no `get` method). -/
def jget (v : JVal) (key : String) (dflt : JVal) : Except PyExc JVal :=
  match v with
  | .jobj fs =>
    match fs.lookup key with
    | some w => .ok w
    | none => .ok dflt
  | _ => .error .attributeError

/-- `x[i]` for a non-negative integer index: list indexing raises
`IndexError` out of range; string indexing yields a one-character string;
dict indexing with an integer key raises `KeyError` (JSON object keys are
strings, so an integer key is never present); other receivers raise
`TypeError`. -/
def jindex (v : JVal) (i : Nat) : Except PyExc JVal :=
  match v with
  | .jarr xs =>
    match xs[i]? with
    | some w => .ok w
    | none => .error .indexError
  | .jstr s =>
    match s.data[i]? with
    | some c => .ok (.jstr (String.mk [c]))
    | none => .error .indexError
  | .jobj _ => .error .keyError
  | _ => .error .typeError

/-- `enumerate(x)`: lists yield their elements, strings their characters,
dicts their keys; numbers, booleans and `None` are not iterable
(`TypeError`). -/
def pyIter : JVal → Except PyExc (List JVal)
  | .jarr xs => .ok xs
  | .jstr s => .ok (s.data.map (fun c => .jstr (String.mk [c])))
  | .jobj fs => .ok (fs.map (fun kv => .jstr kv.1))
  | _ => .error .typeError

/-- `datetime.fromtimestamp(ts, tz=timezone.utc)`: accepts a number
(booleans are ints in Python) and yields the corresponding instant,
embedded as the epoch number itself; other arguments raise `TypeError`.
(Platform range errors for astronomically large epochs are outside the
model.) -/
def fromtimestamp : JVal → Except PyExc Rat
  | .jnum q => .ok q
  | .jbool b => .ok (if b then 1 else 0)
  | _ => .error .typeError

/-- `Decimal(str(x))`: for a JSON number this recovers the written decimal
value (shortest-round-trip `str`); for `None`, booleans, lists and dicts,
`str` produces a non-numeric literal and `Decimal` raises
`decimal.InvalidOperation`.  (Strings that happen to be numeric literals
would parse, but no provider payload modelled here carries numeric
strings, so all strings are mapped to the error case.) -/
def pyDecimalStr : JVal → Except PyExc Rat
  | .jnum q => .ok q
  | _ => .error .invalidOperation

/-- `int(x)`: numbers truncate toward zero, booleans are 0/1, `None` and
containers raise `TypeError`, non-numeric strings raise `ValueError`
(numeric strings are mapped to the error case as in `pyDecimalStr`). -/
def pyInt : JVal → Except PyExc Int
  | .jnum q => .ok (Int.tdiv q.num q.den)
  | .jbool b => .ok (if b then 1 else 0)
  | .jstr _ => .error .valueError
  | _ => .error .typeError

/-- `x or 0`: the left operand when truthy, else the integer 0. -/
def orZero (v : JVal) : JVal :=
  if truthy v then v else .jnum 0

/-! ## Yahoo Finance client (`etl/clients/yahoo.py`) -/

/-- The outcome of one outbound HTTP call, as seen by `_make_request`:
either `httpx` raised an `httpx.HTTPError` (timeout, connection failure,
or a non-2xx status turned into `HTTPStatusError` by
`raise_for_status()`), or a 2xx response arrived whose body parsed as the
given JSON value, or a 2xx response arrived whose body is not JSON (so
`response.json()` raises `json.JSONDecodeError`). -/
inductive RawResponse where
  | transportError (msg : String)
  | body (j : JVal)
  | malformedBody

/-- `YahooFinanceClient._make_request`: performs the HTTP call; an
`httpx.HTTPError` is caught and replaced by the error envelope
`{"chart": {"result": None, "error": {"description": str(e)}}}`; a JSON
body is returned as parsed; a non-JSON body makes `response.json()` raise
`json.JSONDecodeError`, which is not an `httpx.HTTPError` and therefore
propagates. -/
def _make_request (raw : RawResponse) : Except PyExc JVal :=
  match raw with
  | .transportError msg =>
    .ok (.jobj [("chart", .jobj
      [("result", .jnull), ("error", .jobj [("description", .jstr msg)])])])
  | .body j => .ok j
  | .malformedBody => .error .jsonDecodeError

/-- `etl/clients/yahoo.py::YahooQuoteResponse`: the dataclass built per
data point.  `symbol` is stored as whatever `meta.get("symbol", symbol)`
returned (the dataclass performs no type check), hence a `JVal`. -/
structure YahooQuoteResponse where
  symbol : JVal
  timestamp : Rat
  «open» : Rat
  high : Rat
  low : Rat
  close : Rat
  volume : Int
  current_price : Rat
deriving Repr

/-- The loop body of `get_historical_prices`: for the `i`-th timestamp
entry `ts` of the enumerated timestamp list, evaluate
`datetime.fromtimestamp(ts, ...)` and then the `YahooQuoteResponse(...)`
constructor call, whose keyword arguments are evaluated in source order:
`symbol`, `timestamp` (already computed), `open`, `high`, `low`, `close`,
`volume`, `current_price`.  Each price is
`Decimal(str(quotes.get(field, [])[i] or 0))` and the volume is
`int(quotes.get("volume", [])[i] or 0)`. -/
def parseQuote (meta quotes : JVal) (symbol : String) (ts : JVal)
    (i : Nat) : Except PyExc YahooQuoteResponse := do
  let t ← fromtimestamp ts
  let symJ ← jget meta "symbol" (.jstr symbol)
  let openArr ← jget quotes "open" (.jarr [])
  let openV ← jindex openArr i
  let o ← pyDecimalStr (orZero openV)
  let highArr ← jget quotes "high" (.jarr [])
  let highV ← jindex highArr i
  let h ← pyDecimalStr (orZero highV)
  let lowArr ← jget quotes "low" (.jarr [])
  let lowV ← jindex lowArr i
  let l ← pyDecimalStr (orZero lowV)
  let closeArr ← jget quotes "close" (.jarr [])
  let closeV ← jindex closeArr i
  let c ← pyDecimalStr (orZero closeV)
  let volArr ← jget quotes "volume" (.jarr [])
  let volV ← jindex volArr i
  let v ← pyInt (orZero volV)
  let curJ ← jget meta "regularMarketPrice" (.jnum 0)
  let cur ← pyDecimalStr curJ
  return ⟨symJ, t, o, h, l, c, v, cur⟩

/-- The `for i, ts in enumerate(timestamps)` loop of
`get_historical_prices`, accumulating the responses list. -/
def parseQuotes (meta quotes : JVal) (symbol : String) :
    List JVal → Nat → Except PyExc (List YahooQuoteResponse)
  | [], _ => .ok []
  | ts :: rest, i => do
    let q ← parseQuote meta quotes symbol ts i
    let qs ← parseQuotes meta quotes symbol rest (i + 1)
    return q :: qs

/-- The body of the `try` block of `get_historical_prices` (source order:
`chart = result[0]`, `meta`, indicators/`quote` with default `[{}]` then
`[0]`, `timestamp` with default `[]`, the emptiness early return, then the
enumeration loop). -/
def parseHistBody (result : JVal) (symbol : String) :
    Except PyExc (Option (List YahooQuoteResponse)) := do
  let chart ← jindex result 0
  let meta ← jget chart "meta" (.jobj [])
  let indicators ← jget chart "indicators" (.jobj [])
  let quoteArr ← jget indicators "quote" (.jarr [.jobj []])
  let quotes ← jindex quoteArr 0
  let timestamps ← jget chart "timestamp" (.jarr [])
  if truthy timestamps = false then return none
  let tsList ← pyIter timestamps
  let qs ← parseQuotes meta quotes symbol tsList 0
  return some qs

/-- `YahooFinanceClient.get_historical_prices`: `_make_request`, the
`data.get("chart", {}).get("result")` extraction with the
`if not result: return None` early return, and the `try` block whose
`except (IndexError, KeyError, TypeError)` clause converts exactly those
three exception classes into a `None` return; every other exception
propagates. -/
def get_historical_prices (raw : RawResponse) (symbol : String) :
    Except PyExc (Option (List YahooQuoteResponse)) := do
  let data ← _make_request raw
  let chartJ ← jget data "chart" (.jobj [])
  let result ← jget chartJ "result" .jnull
  if truthy result = false then return none
  match parseHistBody result symbol with
  | .ok v => return v
  | .error e =>
    if e = .indexError ∨ e = .keyError ∨ e = .typeError then return none
    else .error e

/-! ## Transformer (`etl/transformers/yahoo_transformer.py`) and the
`MarketPriceCreate` pydantic schema (`schemas/market_price.py`) -/

/-- The numerator of `num / den` (a rational in lowest terms, `den`
positive) scaled by `10^4` and rounded to the nearest integer with ties
away from zero — the integer Python's `ROUND_HALF_UP` rounding mode
selects when quantizing to 4 decimal places.  Written over the raw
numerator and denominator with Euclidean division (which is floor
division for a positive divisor):
`⌊v + 1/2⌋ = (2*num*10^4 + den) / (2*den)` for the non-negative scaled
value `v = num*10^4/den`, and symmetrically for negative values.
`quantizeHalfUp4_eq_floor` below proves this closed form equal to the
textbook half-up formula. -/
def roundHalfUpAt4 (num : Int) (den : Nat) : Int :=
  if 0 ≤ num then (2 * (num * 10000) + den) / (2 * (den : Int))
  else -((2 * (-num * 10000) + den) / (2 * (den : Int)))

/-- `value.quantize(Decimal("0.0001"), rounding=ROUND_HALF_UP)`: round to
4 decimal places, half up (ties away from zero).  (The `decimal`
context-precision overflow for coefficients beyond 28 digits is outside
the model.) -/
def quantizeHalfUp4 (q : Rat) : Rat :=
  mkRat (roundHalfUpAt4 q.num q.den) 10000

/-- `value` has at most `n` decimal places (pydantic's `decimal_places`
constraint, stated on the numeric value): in lowest terms the denominator
divides `10^n`, i.e. `value * 10^n` is an integer. -/
def decimalPlacesLE (q : Rat) (n : Nat) : Prop :=
  q.den ∣ 10 ^ n

instance (q : Rat) (n : Nat) : Decidable (decimalPlacesLE q n) := by
  unfold decimalPlacesLE; infer_instance

/-- `schemas/market_price.py::MarketPriceCreate`: the validated creation
schema.  Field constraints (checked by pydantic on construction): the four
prices are `ge=0` with `decimal_places=8`, the volume is `ge=0`. -/
structure MarketPriceCreate where
  instrument_id : Nat
  timestamp : Rat
  «open» : Rat
  high : Rat
  low : Rat
  close : Rat
  volume : Int
deriving DecidableEq, Repr

/-- Constructing a `MarketPriceCreate(...)`: pydantic validates every
field constraint and raises `ValidationError` if any fails. -/
def MarketPriceCreate.build (instrument_id : Nat) (timestamp o h l c : Rat)
    (volume : Int) : Except PyExc MarketPriceCreate :=
  if 0 ≤ o ∧ 0 ≤ h ∧ 0 ≤ l ∧ 0 ≤ c ∧ 0 ≤ volume ∧
      decimalPlacesLE o 8 ∧ decimalPlacesLE h 8 ∧
      decimalPlacesLE l 8 ∧ decimalPlacesLE c 8 then
    .ok ⟨instrument_id, timestamp, o, h, l, c, volume⟩
  else .error .validationError

/-- `YahooTransformer.transform`: rounds each OHLC price to 4 decimal
places half-up and passes `volume` and `timestamp` through unchanged into
a `MarketPriceCreate`. -/
def transform (quote : YahooQuoteResponse) (instrument_id : Nat) :
    Except PyExc MarketPriceCreate :=
  MarketPriceCreate.build instrument_id quote.timestamp
    (quantizeHalfUp4 quote.«open») (quantizeHalfUp4 quote.high)
    (quantizeHalfUp4 quote.low) (quantizeHalfUp4 quote.close)
    quote.volume

/-- `YahooTransformer.transform_batch`: the element-wise list
comprehension `[self.transform(quote, instrument_id) for quote in
quotes]` (a raised `ValidationError` propagates). -/
def transform_batch (quotes : List YahooQuoteResponse)
    (instrument_id : Nat) : Except PyExc (List MarketPriceCreate) :=
  quotes.mapM (fun q => transform q instrument_id)

/-! ## Instrument store (`repositories/instrument.py`) and the ingestion
orchestrator (`etl/services/ingestion.py`) -/

/-- `models/instrument.py::Instrument`, restricted to the columns the
ingestion pipeline reads (`id`, `symbol`, `is_active`). -/
structure Instrument where
  id : Nat
  symbol : String
  is_active : Bool
deriving DecidableEq, Repr

/-- `InstrumentRepository.get_by_symbol`: `.filter(symbol ==).first()`,
the first matching row in table order. -/
def get_by_symbol (instruments : List Instrument) (symbol : String) :
    Option Instrument :=
  instruments.find? (fun i => i.symbol == symbol)

/-- `InstrumentRepository.get_active`: all rows with `is_active` true. -/
def get_active (instruments : List Instrument) : List Instrument :=
  instruments.filter (fun i => i.is_active)

/-- The collaborators `IngestionService` is constructed with: the
`instruments` table behind `InstrumentRepository`, and the provider
behind `YahooFinanceClient`, as the raw HTTP outcome per
`(symbol, interval, period)` request. -/
structure Env where
  instruments : List Instrument
  provider : String → String → String → RawResponse

/-- Collaborator calls `ingest_by_symbol` makes, recorded for the
short-circuit properties: `clientCall` marks the
`yahoo_client.get_historical_prices` network call, `storeInsert` marks
the `price_repo.bulk_create_new` call. -/
inductive Event where
  | clientCall
  | storeInsert
deriving DecidableEq, Repr

/-- Step 4 of `ingest_by_symbol`: `MarketPrice(instrument_id=...,
timestamp=..., open=..., ...)` built field-by-field from the schema. -/
def toMarketPrice (s : MarketPriceCreate) : MarketPrice :=
  ⟨s.instrument_id, s.timestamp, s.«open», s.high, s.low, s.close, s.volume⟩

/-- `IngestionService.ingest_by_symbol`: resolve the instrument (not
found: return 0 without calling the client), fetch (a `None` result:
return 0 without touching the store), transform, convert to rows, and
persist via the idempotent `bulk_create_new`, returning the inserted
count.  Exceptions from the client, transformer or store propagate.  The
second component records which collaborators were invoked. -/
def ingest_by_symbol (env : Env) (db : DB)
    (symbol interval period : String) :
    Except PyExc (DB × Nat) × List Event :=
  match get_by_symbol env.instruments symbol with
  | none => (.ok (db, 0), [])
  | some instrument =>
    match get_historical_prices (env.provider symbol interval period) symbol with
    | .error e => (.error e, [.clientCall])
    | .ok none => (.ok (db, 0), [.clientCall])
    | .ok (some quotes) =>
      match transform_batch quotes instrument.id with
      | .error e => (.error e, [.clientCall])
      | .ok schemas =>
        let prices := schemas.map toMarketPrice
        match bulk_create_new db prices with
        | .error e => (.error e, [.clientCall, .storeInsert])
        | .ok (db2, inserted) =>
          (.ok (db2, inserted.length), [.clientCall, .storeInsert])

/-- The summary dict `ingest_all_active` returns. -/
structure Summary where
  total_instruments : Nat
  total_inserted : Nat
  failed : Nat
deriving DecidableEq, Repr

/-- The `for instrument in active_instruments` loop of
`ingest_all_active`: each symbol's pipeline runs under a
`try`/`except Exception` that, on any exception, increments the failure
counter and continues with the database state unchanged; on success the
inserted count accumulates.  Returns the final database and the
`(total_inserted, failed)` counters. -/
def runBatch (env : Env) (interval period : String) :
    DB → List Instrument → DB × Nat × Nat
  | db, [] => (db, 0, 0)
  | db, instrument :: rest =>
    match (ingest_by_symbol env db instrument.symbol interval period).1 with
    | .ok (db2, n) =>
      let r := runBatch env interval period db2 rest
      (r.1, n + r.2.1, r.2.2)
    | .error _ =>
      let r := runBatch env interval period db rest
      (r.1, r.2.1, r.2.2 + 1)

/-- Ghost trace of the same loop: `some n` for a symbol whose pipeline
returned an inserted count `n`, `none` for a symbol whose pipeline raised
(threading the database exactly as `runBatch` does). -/
def batchOutcomes (env : Env) (interval period : String) :
    DB → List Instrument → List (Option Nat)
  | _, [] => []
  | db, instrument :: rest =>
    match (ingest_by_symbol env db instrument.symbol interval period).1 with
    | .ok (db2, n) => some n :: batchOutcomes env interval period db2 rest
    | .error _ => none :: batchOutcomes env interval period db rest

/-- `IngestionService.ingest_all_active`: snapshot the active instruments,
run the per-symbol loop with failure isolation, and return the summary
dict.  Total by construction: no exception escapes the loop. -/
def ingest_all_active (env : Env) (db : DB) (interval period : String) :
    DB × Summary :=
  let active := get_active env.instruments
  let r := runBatch env interval period db active
  (r.1, ⟨active.length, r.2.1, r.2.2⟩)

/-! ## Derived notions used to state the properties -/

/-- The schema `transform` produces for a quote on the success path:
OHLC rounded to 4 places half-up, volume and timestamp passed through. -/
def transformedRecord (instrument_id : Nat) (q : YahooQuoteResponse) :
    MarketPriceCreate :=
  ⟨instrument_id, q.timestamp, quantizeHalfUp4 q.«open»,
    quantizeHalfUp4 q.high, quantizeHalfUp4 q.low, quantizeHalfUp4 q.close,
    q.volume⟩

/-- The row `ingest_by_symbol` submits to the store for a quote. -/
def ingestedRow (instrument_id : Nat) (q : YahooQuoteResponse) :
    MarketPrice :=
  toMarketPrice (transformedRecord instrument_id q)

/-- The records of a batch whose `(instrument_id, timestamp)` pair is not
yet stored: the sublist `bulk_create_new`'s existence filter keeps. -/
def freshOnes (db : DB) (instrument_id : Nat)
    (prices : List MarketPrice) : List MarketPrice :=
  prices.filter (fun p =>
    decide (¬ ∃ r ∈ db, r.instrument_id = instrument_id ∧
      r.timestamp = p.timestamp))

/-- A quote whose OHLCV fields are all non-negative (every quote a real
provider feed produces; pydantic's `ge=0` field constraints reject
anything else at `transform` time). -/
def NonnegQuote (q : YahooQuoteResponse) : Prop :=
  0 ≤ q.«open» ∧ 0 ≤ q.high ∧ 0 ≤ q.low ∧ 0 ≤ q.close ∧ 0 ≤ q.volume

instance (q : YahooQuoteResponse) : Decidable (NonnegQuote q) := by
  unfold NonnegQuote; infer_instance

/-! ## Concrete fixtures used by the witness theorems -/

/-- A provider body carrying one data point whose OHLCV values are all
`null`, at the given epoch timestamp. -/
def nullQuoteBody (t : Rat) : JVal :=
  .jobj [("chart", .jobj [("result", .jarr [.jobj
    [("timestamp", .jarr [.jnum t]),
     ("indicators", .jobj [("quote", .jarr [.jobj
       [("open", .jarr [.jnull]), ("high", .jarr [.jnull]),
        ("low", .jarr [.jnull]), ("close", .jarr [.jnull]),
        ("volume", .jarr [.jnull])]])])]])])]

/-- A provider body with two data points: position 0 has `null`
open/volume but valid high/low/close, position 1 is fully populated. -/
def mixedNullBody : JVal :=
  .jobj [("chart", .jobj [("result", .jarr [.jobj
    [("timestamp", .jarr [.jnum 1700000000, .jnum 1700086400]),
     ("indicators", .jobj [("quote", .jarr [.jobj
       [("open", .jarr [.jnull, .jnum 186]),
        ("high", .jarr [.jnum 187, .jnum 188]),
        ("low", .jarr [.jnum 184, .jnum 185]),
        ("close", .jarr [.jnum 186, .jnum 187]),
        ("volume", .jarr [.jnull, .jnum 1100000])]])])]])])]

/-- A well-formed provider body with two fully populated daily points
(close prices 185.5 and 186.5, volumes 1000000 and 1100000), mirroring
the end-to-end scenario of the specification. -/
def aaplBody : JVal :=
  .jobj [("chart", .jobj [("result", .jarr [.jobj
    [("meta", .jobj [("symbol", .jstr "AAPL"),
                     ("regularMarketPrice", .jnum 186)]),
     ("timestamp", .jarr [.jnum 1705276800, .jnum 1705363200]),
     ("indicators", .jobj [("quote", .jarr [.jobj
       [("open", .jarr [.jnum (mkRat 371 2), .jnum 186]),
        ("high", .jarr [.jnum 186, .jnum 187]),
        ("low", .jarr [.jnum 185, .jnum 186]),
        ("close", .jarr [.jnum (mkRat 371 2), .jnum (mkRat 373 2)]),
        ("volume", .jarr [.jnum 1000000, .jnum 1100000])]])])]])])]

/-- The two quotes `aaplBody` parses to. -/
def aaplQuotes : List YahooQuoteResponse :=
  [⟨.jstr "AAPL", 1705276800, mkRat 371 2, 186, 185, mkRat 371 2,
    1000000, 186⟩,
   ⟨.jstr "AAPL", 1705363200, 186, 187, 186, mkRat 373 2, 1100000, 186⟩]

/-- Environment for the single-symbol witnesses: instrument "AAPL"
(id 1, active), provider returning `aaplBody` for "AAPL", an empty
series for "EMPTY", and a transport failure otherwise. -/
def envAapl : Env :=
  ⟨[⟨1, "AAPL", true⟩, ⟨3, "EMPTY", true⟩],
   fun s _ _ =>
     match s with
     | "AAPL" => .body aaplBody
     | "EMPTY" => .body (.jobj [("chart", .jobj [("result", .jnull)])])
     | _ => .transportError "timeout"⟩

/-- Environment for the batch witness: three active instruments, of which
"BAD" hits a provider body that is not JSON (its pipeline raises
`json.JSONDecodeError`), "AAPL" ingests two rows, and "EMPTY" cleanly
ingests zero. -/
def envBatch : Env :=
  ⟨[⟨1, "AAPL", true⟩, ⟨2, "BAD", true⟩, ⟨3, "EMPTY", true⟩,
    ⟨4, "OFF", false⟩],
   fun s _ _ =>
     match s with
     | "AAPL" => .body aaplBody
     | "BAD" => .malformedBody
     | _ => .transportError "timeout"⟩

/-- Two rows for instrument 1 sharing timestamp 1705276800 with different
payloads: an in-batch uniqueness collision. -/
def dupRowA : MarketPrice := ⟨1, 1705276800, 185, 186, 184, 185, 1000⟩

/-- Second row of the colliding pair. -/
def dupRowB : MarketPrice := ⟨1, 1705276800, 99, 99, 99, 99, 7⟩

/-! ## Store lemmas -/

theorem mem_get_existing_timestamps {db : DB} {instrument_id : Nat}
    {tsl : List Rat} {q : Rat} :
    q ∈ get_existing_timestamps db instrument_id tsl ↔
      q ∈ tsl ∧ ∃ r ∈ db, r.instrument_id = instrument_id ∧
        r.timestamp = q := by
  unfold get_existing_timestamps
  by_cases h : tsl = []
  · subst h
    simp
  · rw [if_neg h]
    simp only [List.mem_toFinset, List.mem_map, List.mem_filter,
      decide_eq_true_eq]
    constructor
    · rintro ⟨r, ⟨hr, hiid, hts⟩, rfl⟩
      exact ⟨hts, r, hr, hiid, rfl⟩
    · rintro ⟨hq, r, hr, hiid, rfl⟩
      exact ⟨r, ⟨hr, hiid, hq⟩, rfl⟩

theorem hasDupKey_eq_false {l : List MarketPrice}
    (h : (l.map (fun p => p.timestamp)).Nodup) : hasDupKey l = false := by
  induction l with
  | nil => rfl
  | cons p rest ih =>
    simp only [List.map_cons, List.nodup_cons, List.mem_map] at h
    unfold hasDupKey
    rw [ih h.2, Bool.or_false, List.any_eq_false]
    intro r hr hkey
    unfold sameKey at hkey
    rw [decide_eq_true_eq] at hkey
    exact h.1 ⟨r, hr, hkey.2.symm⟩

theorem violatesUnique_eq_false {db : DB} {l : List MarketPrice}
    (hfresh : ∀ p ∈ l, ¬ ∃ r ∈ db, r.instrument_id = p.instrument_id ∧
      r.timestamp = p.timestamp)
    (hnodup : (l.map (fun p => p.timestamp)).Nodup) :
    violatesUnique db l = false := by
  unfold violatesUnique
  rw [hasDupKey_eq_false hnodup, Bool.or_false, List.any_eq_false]
  intro p hp hdb
  rw [List.any_eq_true] at hdb
  obtain ⟨r, hr, hkey⟩ := hdb
  unfold sameKey at hkey
  rw [decide_eq_true_eq] at hkey
  exact hfresh p hp ⟨r, hr, hkey⟩

theorem bulk_create_ok {db : DB} {l : List MarketPrice}
    (h : violatesUnique db l = false) :
    bulk_create db l = .ok (db ++ l, l) := by
  unfold bulk_create
  rw [h]
  rfl

/-- The existence filter of `bulk_create_new` computes `freshOnes`, and
for a non-empty single-instrument batch the call reduces to an emptiness
test on it followed by the `bulk_create` write. -/
theorem bulk_create_new_eq_fresh (db : DB) (iid : Nat) (p0 : MarketPrice)
    (rest : List MarketPrice)
    (hiid : ∀ p ∈ p0 :: rest, p.instrument_id = iid) :
    bulk_create_new db (p0 :: rest) =
      if freshOnes db iid (p0 :: rest) = [] then .ok (db, [])
      else bulk_create db (freshOnes db iid (p0 :: rest)) := by
  have hp0 : p0.instrument_id = iid := hiid p0 (by simp)
  have hfilter :
      (p0 :: rest).filter (fun p => decide (p.timestamp ∉
        get_existing_timestamps db p0.instrument_id
          ((p0 :: rest).map (fun p => p.timestamp)))) =
        freshOnes db iid (p0 :: rest) := by
    apply List.filter_congr
    intro p hp
    rw [decide_eq_decide]
    rw [hp0, mem_get_existing_timestamps]
    have hmem : p.timestamp ∈ (p0 :: rest).map (fun p => p.timestamp) :=
      List.mem_map.mpr ⟨p, hp, rfl⟩
    constructor
    · intro hno hex
      exact hno ⟨hmem, hex⟩
    · intro hno hex
      exact hno hex.2
  show (if _ = ([] : List MarketPrice) then _ else _) = _
  rw [hfilter]

/-- No record of `freshOnes` collides with a stored row of its
instrument. -/
theorem freshOnes_no_collision {db : DB} {iid : Nat}
    {prices : List MarketPrice}
    (hiid : ∀ p ∈ prices, p.instrument_id = iid) :
    ∀ p ∈ freshOnes db iid prices,
      ¬ ∃ r ∈ db, r.instrument_id = p.instrument_id ∧
        r.timestamp = p.timestamp := by
  intro p hp
  unfold freshOnes at hp
  rw [List.mem_filter, decide_eq_true_eq] at hp
  intro ⟨r, hr, hriid, hrts⟩
  exact hp.2 ⟨r, hr, by rw [hriid, hiid p hp.1], hrts⟩

/-- What `bulk_create_new` does for a single-instrument batch whose fresh
remainder has pairwise distinct timestamps: it persists exactly the fresh
records, appended to the stored rows, and returns them. -/
theorem bulk_create_new_spec (db : DB) (iid : Nat)
    (prices : List MarketPrice)
    (hiid : ∀ p ∈ prices, p.instrument_id = iid)
    (hnodup : ((freshOnes db iid prices).map
      (fun p => p.timestamp)).Nodup) :
    bulk_create_new db prices =
      .ok (db ++ freshOnes db iid prices, freshOnes db iid prices) := by
  match prices with
  | [] => simp [bulk_create_new, freshOnes]
  | p0 :: rest =>
    rw [bulk_create_new_eq_fresh db iid p0 rest hiid]
    by_cases hempty : freshOnes db iid (p0 :: rest) = []
    · rw [if_pos hempty, hempty, List.append_nil]
    · rw [if_neg hempty]
      exact bulk_create_ok
        (violatesUnique_eq_false (freshOnes_no_collision hiid) hnodup)

/-- Each row of `freshOnes` indeed has no stored counterpart. -/
theorem mem_freshOnes {db : DB} {iid : Nat} {prices : List MarketPrice}
    {p : MarketPrice} :
    p ∈ freshOnes db iid prices ↔
      p ∈ prices ∧ ¬ ∃ r ∈ db, r.instrument_id = iid ∧
        r.timestamp = p.timestamp := by
  unfold freshOnes
  rw [List.mem_filter, decide_eq_true_eq]

/-- Appending rows of one instrument grows that instrument's row count by
exactly the number of appended rows. -/
theorem countFor_append {db : DB} {iid : Nat} {l : List MarketPrice}
    (h : ∀ p ∈ l, p.instrument_id = iid) :
    countFor (db ++ l) iid = countFor db iid + l.length := by
  unfold countFor
  rw [List.filter_append, List.length_append]
  congr 1
  rw [List.filter_eq_self.mpr (fun p hp => decide_eq_true (h p hp))]

/-- C4: Partial novelty of the idempotent insert.  For a non-empty batch
sharing one `instrument_id`, writing `newRecords` for the sublist of the
batch whose timestamps are not yet stored for that instrument (the "M new
records"; records for already-stored timestamps are the rest of the
batch), `bulk_create_new` persists exactly `newRecords`, returns exactly
`newRecords` (so the caller's count is M), grows the instrument's row
count by exactly M, and, when the filtered remainder is empty, performs
no write and returns the empty sequence with the database unchanged. -/
theorem claim_C4_partial_novelty (db : DB) (iid : Nat)
    (prices : List MarketPrice)
    (hiid : ∀ p ∈ prices, p.instrument_id = iid)
    (hnodup : ((freshOnes db iid prices).map
      (fun p => p.timestamp)).Nodup) :
    bulk_create_new db prices =
      .ok (db ++ freshOnes db iid prices, freshOnes db iid prices) ∧
    countFor (db ++ freshOnes db iid prices) iid =
      countFor db iid + (freshOnes db iid prices).length ∧
    (freshOnes db iid prices = [] →
      bulk_create_new db prices = .ok (db, [])) := by
  refine ⟨bulk_create_new_spec db iid prices hiid hnodup, ?_, ?_⟩
  · exact countFor_append (fun p hp => hiid p (mem_freshOnes.mp hp).1)
  · intro hempty
    rw [bulk_create_new_spec db iid prices hiid hnodup, hempty,
      List.append_nil]

/-- C4 witness: one stored timestamp, a batch resubmitting it plus one
new timestamp; exactly the new record is inserted and returned. -/
theorem claim_C4_witness :
    bulk_create_new [⟨1, 10, 185, 186, 184, 185, 50⟩]
        [⟨1, 10, 185, 186, 184, 185, 50⟩, ⟨1, 20, 186, 187, 185, 186, 60⟩] =
      .ok ([⟨1, 10, 185, 186, 184, 185, 50⟩,
            ⟨1, 20, 186, 187, 185, 186, 60⟩],
           [⟨1, 20, 186, 187, 185, 186, 60⟩]) ∧
    countFor [⟨1, 10, 185, 186, 184, 185, 50⟩, ⟨1, 20, 186, 187, 185, 186, 60⟩] 1 =
      countFor [⟨1, 10, 185, 186, 184, 185, 50⟩] 1 + 1 := by
  have h := claim_C4_partial_novelty [⟨1, 10, 185, 186, 184, 185, 50⟩] 1
    [⟨1, 10, 185, 186, 184, 185, 50⟩, ⟨1, 20, 186, 187, 185, 186, 60⟩]
    (by decide) (by decide)
  have hfr : freshOnes [⟨1, 10, 185, 186, 184, 185, 50⟩] 1
      [⟨1, 10, 185, 186, 184, 185, 50⟩, ⟨1, 20, 186, 187, 185, 186, 60⟩] =
      [⟨1, 20, 186, 187, 185, 186, 60⟩] := by decide
  rw [hfr] at h
  exact ⟨h.1, h.2.1⟩

/-- C9: No in-batch deduplication.  For a non-empty single-instrument
batch none of whose timestamps are stored yet, the existence filter of
`bulk_create_new` removes nothing — the whole batch, duplicates included,
is forwarded to the single atomic `bulk_create` write — and when the
batch does contain two records with the same timestamp, that write raises
the uniqueness violation. -/
theorem claim_C9_no_inbatch_dedup (db : DB) (iid : Nat)
    (p0 : MarketPrice) (rest : List MarketPrice)
    (hiid : ∀ p ∈ p0 :: rest, p.instrument_id = iid)
    (hfresh : ∀ p ∈ p0 :: rest, ¬ ∃ r ∈ db, r.instrument_id = iid ∧
      r.timestamp = p.timestamp) :
    bulk_create_new db (p0 :: rest) = bulk_create db (p0 :: rest) ∧
    (hasDupKey (p0 :: rest) = true →
      bulk_create_new db (p0 :: rest) = .error .integrityError) := by
  have hfr : freshOnes db iid (p0 :: rest) = p0 :: rest :=
    List.filter_eq_self.mpr
      (fun p hp => decide_eq_true (hfresh p hp))
  have hmain : bulk_create_new db (p0 :: rest) = bulk_create db (p0 :: rest) := by
    rw [bulk_create_new_eq_fresh db iid p0 rest hiid, hfr]
    rw [if_neg (by simp)]
  refine ⟨hmain, fun hdup => ?_⟩
  rw [hmain]
  unfold bulk_create violatesUnique
  rw [hdup, Bool.or_true]
  rfl

/-- C9 witness: two fresh records with the same timestamp are both
forwarded to the write, which raises the uniqueness violation. -/
theorem claim_C9_witness :
    bulk_create_new [] [dupRowA, dupRowB] = bulk_create [] [dupRowA, dupRowB] ∧
    bulk_create_new [] [dupRowA, dupRowB] = .error .integrityError := by
  have h := claim_C9_no_inbatch_dedup [] 1 dupRowA [dupRowB]
    (by decide) (by simp)
  exact ⟨h.1, h.2 (by decide)⟩

/-- C2 counterexample: the claim says a uniqueness-constraint violation
raised by the storage layer during the write is absorbed and never
surfaced to the caller; but `bulk_create`/`bulk_create_new` contain no
`try`/`except`, so a batch whose write violates `uq_instrument_timestamp`
(two records for instrument 1 at the same instant, neither timestamp
stored, so the existence filter removes nothing) makes the insert call
return the raised `IntegrityError` to the caller. -/
theorem claim_C2_counterexample :
    bulk_create_new [] [dupRowA, dupRowB] = .error .integrityError ∧
    bulk_create_new [] [dupRowA, dupRowB] ≠ .ok ([dupRowA, dupRowB], [dupRowA, dupRowB]) := by
  have h : bulk_create_new [] [dupRowA, dupRowB] = .error .integrityError := by
    rfl
  refine ⟨h, ?_⟩
  intro hok
  rw [h] at hok
  exact Except.noConfusion hok

/-- C2 amended: the store does not absorb uniqueness violations — with no
`try`/`except` around the commit, an `IntegrityError` raised during the
write propagates out of `bulk_create_new` to the caller.  What does hold
is that in the race-free sequential case the violation never arises: for
a single-instrument batch with pairwise-distinct timestamps, the
existence filter removes every conflicting record before the write, so
`bulk_create_new` always returns successfully. -/
theorem claim_C2_amended (db : DB) (iid : Nat)
    (prices : List MarketPrice)
    (hiid : ∀ p ∈ prices, p.instrument_id = iid)
    (hnodup : (prices.map (fun p => p.timestamp)).Nodup) :
    ∃ db2 ins, bulk_create_new db prices = .ok (db2, ins) := by
  have hsub : ((freshOnes db iid prices).map
      (fun p => p.timestamp)).Nodup := by
    apply List.Nodup.sublist _ hnodup
    exact List.Sublist.map _ (List.filter_sublist prices)
  exact ⟨_, _, bulk_create_new_spec db iid prices hiid hsub⟩

/-- C2 amended witness: a batch resubmitting a stored timestamp together
with a new one completes without error. -/
theorem claim_C2_witness :
    ∃ db2 ins,
      bulk_create_new [⟨1, 10, 185, 186, 184, 185, 50⟩]
        [⟨1, 10, 99, 99, 99, 99, 9⟩, ⟨1, 20, 186, 187, 185, 186, 60⟩] =
        .ok (db2, ins) :=
  claim_C2_amended [⟨1, 10, 185, 186, 184, 185, 50⟩] 1
    [⟨1, 10, 99, 99, 99, 99, 9⟩, ⟨1, 20, 186, 187, 185, 186, 60⟩]
    (by decide) (by decide)

/-! ## Transformer lemmas -/

/-- The computable rounding of `quantizeHalfUp4` coincides with the
textbook description of `ROUND_HALF_UP` to 4 places: scale by `10^4`, add
half, take the floor — with ties away from zero for negative values. -/
theorem quantizeHalfUp4_eq_floor (q : Rat) :
    quantizeHalfUp4 q =
      ((if 0 ≤ q then ⌊q * 10000 + 1 / 2⌋
        else -⌊-q * 10000 + 1 / 2⌋ : Int) : Rat) / 10000 := by
  have key : ∀ (n : Int) (d : Nat), d ≠ 0 →
      ⌊((n : ℚ) / (d : ℚ)) * 10000 + 1 / 2⌋ =
        (2 * (n * 10000) + (d : Int)) / (2 * (d : Int)) := by
    intro n d hd
    have hd' : ((d : ℚ)) ≠ 0 := by exact_mod_cast hd
    have hval : ((n : ℚ) / (d : ℚ)) * 10000 + 1 / 2 =
        (((2 * (n * 10000) + (d : Int)) : Int) : ℚ) /
          (((2 * d : Nat)) : ℚ) := by
      push_cast
      field_simp
      ring
    rw [hval, Rat.floor_intCast_div_natCast]
    push_cast
    ring
  unfold quantizeHalfUp4 roundHalfUpAt4
  rw [Rat.mkRat_eq_div]
  by_cases hq : 0 ≤ q.num
  · rw [if_pos hq, if_pos (Rat.num_nonneg.mp hq)]
    have h1 := key q.num q.den q.den_nz
    rw [Rat.num_div_den q] at h1
    rw [h1]
    norm_num
  · rw [if_neg hq, if_neg (fun h => hq (Rat.num_nonneg.mpr h))]
    have h2 := key (-q.num) q.den q.den_nz
    have hnq : ((-q.num : Int) : ℚ) / ((q.den : ℕ) : ℚ) = -q := by
      push_cast
      rw [neg_div, Rat.num_div_den]
    rw [hnq] at h2
    rw [h2]
    norm_num

theorem quantizeHalfUp4_nonneg {q : Rat} (h : 0 ≤ q) :
    0 ≤ quantizeHalfUp4 q := by
  rw [quantizeHalfUp4_eq_floor, if_pos h]
  apply div_nonneg _ (by norm_num)
  have hx : (0 : Rat) ≤ q * 10000 := by positivity
  have : (0 : Int) ≤ ⌊q * 10000 + 1 / 2⌋ :=
    Int.le_floor.mpr (by push_cast; linarith)
  exact_mod_cast this

theorem quantizeHalfUp4_places {q : Rat} :
    decimalPlacesLE (quantizeHalfUp4 q) 8 := by
  unfold decimalPlacesLE quantizeHalfUp4
  have h1 : ((mkRat (roundHalfUpAt4 q.num q.den) 10000).den : Int) ∣
      (10000 : Int) := by
    rw [Rat.mkRat_eq_divInt]
    exact Rat.den_dvd _ _
  have h2 : (mkRat (roundHalfUpAt4 q.num q.den) 10000).den ∣ 10000 := by
    exact_mod_cast h1
  exact dvd_trans h2 (by norm_num)

/-- On a quote with non-negative fields, `transform` succeeds and rounds
the OHLC prices while passing timestamp and volume through. -/
theorem transform_ok (q : YahooQuoteResponse) (iid : Nat)
    (h : NonnegQuote q) :
    transform q iid = .ok (transformedRecord iid q) := by
  obtain ⟨ho, hh, hl, hc, hv⟩ := h
  unfold transform MarketPriceCreate.build transformedRecord
  rw [if_pos]
  exact ⟨quantizeHalfUp4_nonneg ho, quantizeHalfUp4_nonneg hh,
    quantizeHalfUp4_nonneg hl, quantizeHalfUp4_nonneg hc, hv,
    quantizeHalfUp4_places, quantizeHalfUp4_places,
    quantizeHalfUp4_places, quantizeHalfUp4_places⟩

/-- `transform_batch` on non-negative quotes is the element-wise map. -/
theorem transform_batch_ok (quotes : List YahooQuoteResponse) (iid : Nat)
    (h : ∀ q ∈ quotes, NonnegQuote q) :
    transform_batch quotes iid =
      .ok (quotes.map (transformedRecord iid)) := by
  induction quotes with
  | nil => rfl
  | cons q rest ih =>
    have hq := transform_ok q iid (h q (by simp))
    have hr := ih (fun x hx => h x (by simp [hx]))
    unfold transform_batch at hr ⊢
    rw [List.mapM_cons, hq, hr]
    rfl

/-- C6: Rounding and pass-through.  For every quote with the non-negative
OHLCV fields a price feed carries, `transform` rounds each of
open/high/low/close to 4 decimal places with round-half-up semantics
(`quantizeHalfUp4`; in particular 185.00005 rounds to 185.0001) and
passes `volume` and `timestamp` through unchanged; `transform_batch` is
the element-wise map of `transform`, preserving input order and length
with no filtering. -/
theorem claim_C6_rounding_passthrough :
    (∀ (q : YahooQuoteResponse) (iid : Nat), NonnegQuote q →
      transform q iid = .ok ⟨iid, q.timestamp,
        quantizeHalfUp4 q.«open», quantizeHalfUp4 q.high,
        quantizeHalfUp4 q.low, quantizeHalfUp4 q.close, q.volume⟩) ∧
    quantizeHalfUp4 (18500005 / 100000) = 1850001 / 10000 ∧
    (∀ (quotes : List YahooQuoteResponse) (iid : Nat),
      (∀ q ∈ quotes, NonnegQuote q) →
      transform_batch quotes iid =
        .ok (quotes.map (fun q => ⟨iid, q.timestamp,
          quantizeHalfUp4 q.«open», quantizeHalfUp4 q.high,
          quantizeHalfUp4 q.low, quantizeHalfUp4 q.close, q.volume⟩)) ∧
      (quotes.map (transformedRecord iid)).length = quotes.length) := by
  refine ⟨transform_ok, by rw [quantizeHalfUp4_eq_floor]; norm_num, ?_⟩
  intro quotes iid h
  exact ⟨transform_batch_ok quotes iid h, List.length_map _ _⟩

/-- C6 witness: a quote with open 185.00005 and a 64-bit-range volume
transforms to a record with open 185.0001 and the volume unchanged. -/
theorem claim_C6_witness :
    transform ⟨.jstr "AAPL", 1705276800, 18500005 / 100000, 186, 185,
        3711 / 20, 5000000000, 186⟩ 7 =
      .ok ⟨7, 1705276800, 1850001 / 10000, 186, 185, 18555 / 100,
        5000000000⟩ := by
  have h := claim_C6_rounding_passthrough.1
    ⟨.jstr "AAPL", 1705276800, 18500005 / 100000, 186, 185, 3711 / 20,
      5000000000, 186⟩ 7 (by constructor <;> norm_num)
  rw [h]
  norm_num [quantizeHalfUp4_eq_floor]

/-! ## Orchestrator short-circuit claims -/

/-- C7: Unknown-symbol short-circuit.  When no instrument matches the
symbol, `ingest_by_symbol` returns 0 with the database unchanged and an
empty collaborator trace: the provider client is never invoked (the
conclusion holds for every provider the environment could carry), and the
miss is not an error. -/
theorem claim_C7_unknown_symbol (env : Env) (db : DB)
    (symbol interval period : String)
    (h : get_by_symbol env.instruments symbol = none) :
    ingest_by_symbol env db symbol interval period = (.ok (db, 0), []) := by
  unfold ingest_by_symbol
  rw [h]

/-- C7 witness: a symbol absent from the instrument table returns 0
without any collaborator call. -/
theorem claim_C7_witness :
    ingest_by_symbol envAapl [] "UNKNOWN" "1d" "1mo" = (.ok ([], 0), []) :=
  claim_C7_unknown_symbol envAapl [] "UNKNOWN" "1d" "1mo" (by rfl)

/-- C8: NoData short-circuit.  When the instrument resolves but the
client's fetch returns the `NoData` result (`None`), `ingest_by_symbol`
returns 0 with the database unchanged, and the collaborator trace
contains only the client call: the store's insert path is never
invoked. -/
theorem claim_C8_nodata_shortcircuit (env : Env) (db : DB)
    (symbol interval period : String) (inst : Instrument)
    (h1 : get_by_symbol env.instruments symbol = some inst)
    (h2 : get_historical_prices (env.provider symbol interval period)
      symbol = .ok none) :
    ingest_by_symbol env db symbol interval period =
      (.ok (db, 0), [.clientCall]) ∧
    Event.storeInsert ∉ (ingest_by_symbol env db symbol interval period).2 := by
  have hmain : ingest_by_symbol env db symbol interval period =
      (.ok (db, 0), [.clientCall]) := by
    unfold ingest_by_symbol
    rw [h1, h2]
  refine ⟨hmain, ?_⟩
  rw [hmain]
  simp

/-- C8 witness: the "EMPTY" symbol resolves to instrument 3 but the
provider reports an empty result; the ingest returns 0 and only the
client was called. -/
theorem claim_C8_witness :
    ingest_by_symbol envAapl [] "EMPTY" "1d" "1mo" =
      (.ok ([], 0), [.clientCall]) ∧
    Event.storeInsert ∉ (ingest_by_symbol envAapl [] "EMPTY" "1d" "1mo").2 :=
  claim_C8_nodata_shortcircuit envAapl [] "EMPTY" "1d" "1mo"
    ⟨3, "EMPTY", true⟩ (by rfl) (by rfl)

/-! ## Client claims -/

@[simp] theorem ok_bind {α β : Type} (a : α) (f : α → Except PyExc β) :
    (Except.ok a >>= f) = f a := rfl

@[simp] theorem error_bind {α β : Type} (e : PyExc)
    (f : α → Except PyExc β) :
    ((Except.error e : Except PyExc α) >>= f) = .error e := rfl

/-- C5 counterexample: the claim says every malformed payload or shape
mismatch yields the `NoData` result rather than an exception; but a 2xx
response whose JSON body is a top-level array (here `[1]`) reaches
`data.get("chart", {})` outside the `try` block, where a list has no
`get` method, so `get_historical_prices` raises `AttributeError` to its
caller instead of returning `None`. -/
theorem claim_C5_counterexample :
    get_historical_prices (.body (.jarr [.jnum 1])) "AAPL" =
      .error .attributeError ∧
    get_historical_prices (.body (.jarr [.jnum 1])) "AAPL" ≠ .ok none := by
  have h : get_historical_prices (.body (.jarr [.jnum 1])) "AAPL" =
      .error .attributeError := rfl
  refine ⟨h, ?_⟩
  intro hok
  rw [h] at hok
  exact Except.noConfusion hok

/-- C5 amended: ordinary transport failures (timeout, non-2xx — any
`httpx.HTTPError`) return `NoData`, and the named shape mismatches inside
the chart envelope — a missing timestamp array, and a missing quote block
(whose probe raises `IndexError`, one of the three caught classes) — also
return `NoData`; but the totality is limited to those families: a payload
whose top level is not a JSON object escapes as an uncaught
`AttributeError` (see the counterexample). -/
theorem claim_C5_amended :
    (∀ (msg symbol : String),
      get_historical_prices (.transportError msg) symbol = .ok none) ∧
    (∀ (cf : List (String × JVal)) (symbol : String),
      cf.lookup "timestamp" = none →
      cf.lookup "indicators" = none →
      get_historical_prices
        (.body (.jobj [("chart", .jobj [("result", .jarr [.jobj cf])])]))
        symbol = .ok none) ∧
    (∀ (ts0 : Rat) (tsRest : List JVal) (symbol : String)
        (cf ind : List (String × JVal)),
      cf.lookup "timestamp" = some (.jarr (.jnum ts0 :: tsRest)) →
      cf.lookup "indicators" = some (.jobj ind) →
      ind.lookup "quote" = none →
      cf.lookup "meta" = none →
      get_historical_prices
        (.body (.jobj [("chart", .jobj [("result", .jarr [.jobj cf])])]))
        symbol = .ok none) := by
  refine ⟨fun msg symbol => rfl, ?_, ?_⟩
  · intro cf symbol h1 h2
    have hbody : parseHistBody (.jarr [.jobj cf]) symbol = .ok none := by
      unfold parseHistBody
      simp [jindex, jget, h1, h2, truthy]
      cases hm : List.lookup "meta" cf <;> simp [hm]
    unfold get_historical_prices
    simp [_make_request, jget, truthy, hbody]
    rfl
  · intro ts0 tsRest symbol cf ind h1 h2 h3 h4
    have hbody : parseHistBody (.jarr [.jobj cf]) symbol =
        .error .indexError := by
      unfold parseHistBody
      simp [jindex, jget, h1, h2, h3, h4, truthy, pyIter, parseQuotes,
        parseQuote, fromtimestamp]
    unfold get_historical_prices
    simp [_make_request, jget, truthy, hbody]
    rfl

/-- C5 amended witness: the three families at concrete inputs — a
transport timeout, a chart object with no timestamp array, and a chart
whose indicators carry no quote block — all return `NoData`. -/
theorem claim_C5_witness :
    get_historical_prices (.transportError "timeout") "AAPL" = .ok none ∧
    get_historical_prices
      (.body (.jobj [("chart", .jobj [("result",
        .jarr [.jobj [("meta", .jobj [])]])])])) "AAPL" = .ok none ∧
    get_historical_prices
      (.body (.jobj [("chart", .jobj [("result", .jarr [.jobj
        [("timestamp", .jarr [.jnum 1705276800]),
         ("indicators", .jobj [])]])])])) "AAPL" = .ok none :=
  ⟨claim_C5_amended.1 "timeout" "AAPL",
   claim_C5_amended.2.1 [("meta", .jobj [])] "AAPL" (by rfl) (by rfl),
   claim_C5_amended.2.2 1705276800 [] "AAPL"
     [("timestamp", .jarr [.jnum 1705276800]), ("indicators", .jobj [])]
     [] (by rfl) (by rfl) (by rfl) (by rfl)⟩

/-- C10: Null coercion to zero.  A data point whose OHLCV entries are all
JSON `null` while its timestamp is valid is still emitted, with decimal 0
for the four prices and integer 0 for the volume (first conjunct, for an
arbitrary epoch timestamp); and in a two-point series where only position
0 carries nulls (open and volume) the null entries become 0 while the
populated entries pass through, with no data point skipped (second
conjunct). -/
theorem claim_C10_null_coercion :
    (∀ (t : Rat) (symbol : String),
      get_historical_prices (.body (nullQuoteBody t)) symbol =
        .ok (some [⟨.jstr symbol, t, 0, 0, 0, 0, 0, 0⟩])) ∧
    get_historical_prices (.body mixedNullBody) "AAPL" =
      .ok (some
        [⟨.jstr "AAPL", 1700000000, 0, 187, 184, 186, 0, 0⟩,
         ⟨.jstr "AAPL", 1700086400, 186, 188, 185, 187, 1100000, 0⟩]) :=
  ⟨fun _ _ => rfl, rfl⟩

/-! ## Batch claims -/

/-- The accumulating counters of the batch loop agree with the ghost
outcome trace: `total_inserted` is the sum of the successful symbols'
inserted counts and the failure counter is the number of symbols whose
pipeline raised. -/
theorem runBatch_eq_outcomes (env : Env) (interval period : String) :
    ∀ (l : List Instrument) (db : DB),
      (runBatch env interval period db l).2.1 =
        ((batchOutcomes env interval period db l).filterMap id).sum ∧
      (runBatch env interval period db l).2.2 =
        (batchOutcomes env interval period db l).count none := by
  intro l
  induction l with
  | nil => intro db; simp [runBatch, batchOutcomes]
  | cons inst rest ih =>
    intro db
    rcases hstep : (ingest_by_symbol env db inst.symbol interval period).1
      with e | ⟨db2, n⟩
    · have hr := ih db
      simp [runBatch, batchOutcomes, hstep, hr.1, hr.2, List.count_cons]
    · have hr := ih db2
      simp [runBatch, batchOutcomes, hstep, hr.1, hr.2, List.count_cons]

/-- C3: Batch failure isolation.  `ingest_all_active` is a total function
(by its type, no exception escapes the loop); whenever exactly one active
symbol's pipeline raises (the outcome trace records one `none`), the
summary reports `failed = 1`, `total_instruments` equal to the number of
active instruments, and `total_inserted` equal to the sum of the
successful symbols' inserted counts. -/
theorem claim_C3_batch_isolation (env : Env) (db : DB)
    (interval period : String)
    (hone : (batchOutcomes env interval period db
      (get_active env.instruments)).count none = 1) :
    (ingest_all_active env db interval period).2.failed = 1 ∧
    (ingest_all_active env db interval period).2.total_instruments =
      (get_active env.instruments).length ∧
    (ingest_all_active env db interval period).2.total_inserted =
      ((batchOutcomes env interval period db
        (get_active env.instruments)).filterMap id).sum := by
  have h := runBatch_eq_outcomes env interval period
    (get_active env.instruments) db
  unfold ingest_all_active
  exact ⟨by rw [← hone]; exact h.2, rfl, h.1⟩

/-- C3 witness: three active instruments of which exactly "BAD" raises
(its provider body is not JSON); the summary is
`total_instruments = 3`, `total_inserted = 2` (both from "AAPL"),
`failed = 1`. -/
theorem claim_C3_witness :
    (ingest_all_active envBatch [] "1d" "1mo").2.failed = 1 ∧
    (ingest_all_active envBatch [] "1d" "1mo").2.total_instruments = 3 ∧
    (ingest_all_active envBatch [] "1d" "1mo").2.total_inserted = 2 := by
  have h := claim_C3_batch_isolation envBatch [] "1d" "1mo" (by rfl)
  refine ⟨h.1, ?_, ?_⟩
  · rw [h.2.1]
    rfl
  · rw [h.2.2]
    rfl

/-! ## Idempotency of single-symbol ingestion -/

/-- C1: Idempotency of ingestion.  Fix an environment (instrument table
and provider behaviour), a symbol resolving to instrument `inst`, and a
fixed provider response parsing to `quotes` (pairwise-distinct
timestamps, none yet stored for `inst`, fields non-negative as real feeds
are).  Then the first `ingest_by_symbol` run inserts the full set —
returning `quotes.length` and appending exactly one row per quote — the
second, identical run inserts zero additional rows and leaves the
database unchanged, and the instrument's total row count after the runs
is the original count plus `quotes.length` (unchanged by the repeat). -/
theorem claim_C1_idempotency (env : Env) (db : DB)
    (symbol interval period : String) (inst : Instrument)
    (quotes : List YahooQuoteResponse)
    (hlook : get_by_symbol env.instruments symbol = some inst)
    (hfetch : get_historical_prices (env.provider symbol interval period)
      symbol = .ok (some quotes))
    (hnn : ∀ q ∈ quotes, NonnegQuote q)
    (hnodup : (quotes.map (fun q => q.timestamp)).Nodup)
    (hfresh : ∀ q ∈ quotes, ¬ ∃ r ∈ db, r.instrument_id = inst.id ∧
      r.timestamp = q.timestamp) :
    ingest_by_symbol env db symbol interval period =
      (.ok (db ++ quotes.map (ingestedRow inst.id), quotes.length),
       [.clientCall, .storeInsert]) ∧
    ingest_by_symbol env (db ++ quotes.map (ingestedRow inst.id))
        symbol interval period =
      (.ok (db ++ quotes.map (ingestedRow inst.id), 0),
       [.clientCall, .storeInsert]) ∧
    countFor (db ++ quotes.map (ingestedRow inst.id)) inst.id =
      countFor db inst.id + quotes.length := by
  set rows := quotes.map (ingestedRow inst.id) with hrows
  have hrows_iid : ∀ p ∈ rows, p.instrument_id = inst.id := by
    intro p hp
    obtain ⟨q, _, rfl⟩ := List.mem_map.mp hp
    rfl
  have hts : rows.map (fun p => p.timestamp) =
      quotes.map (fun q => q.timestamp) := by
    rw [hrows, List.map_map]
    rfl
  have htb := transform_batch_ok quotes inst.id hnn
  have hrw : (quotes.map (transformedRecord inst.id)).map toMarketPrice =
      rows := by
    rw [hrows, List.map_map]
    rfl
  have hb1 : bulk_create_new db rows = .ok (db ++ rows, rows) := by
    have hfr : freshOnes db inst.id rows = rows := by
      apply List.filter_eq_self.mpr
      intro p hp
      obtain ⟨q, hq, rfl⟩ := List.mem_map.mp hp
      exact decide_eq_true (hfresh q hq)
    have h := bulk_create_new_spec db inst.id rows hrows_iid
      (by rw [hfr, hts]; exact hnodup)
    rw [hfr] at h
    exact h
  have hb2 : bulk_create_new (db ++ rows) rows = .ok (db ++ rows, []) := by
    have hfr2 : freshOnes (db ++ rows) inst.id rows = [] := by
      apply List.filter_eq_nil_iff.mpr
      intro p hp
      obtain ⟨q, hq, rfl⟩ := List.mem_map.mp hp
      simp only [decide_eq_true_eq, not_not]
      exact ⟨ingestedRow inst.id q,
        List.mem_append_right db (List.mem_map_of_mem _ hq), rfl, rfl⟩
    have h := bulk_create_new_spec (db ++ rows) inst.id rows hrows_iid
      (by rw [hfr2]; exact List.nodup_nil)
    rw [hfr2, List.append_nil] at h
    exact h
  refine ⟨?_, ?_, ?_⟩
  · unfold ingest_by_symbol
    simp only [hlook, hfetch, htb, hrw, hb1]
    rw [hrows, List.length_map]
  · unfold ingest_by_symbol
    simp only [hlook, hfetch, htb, hrw, hb2]
    rfl
  · rw [countFor_append hrows_iid, hrows, List.length_map]

/-- C1 witness: with instrument "AAPL" (id 1) and a fixed two-point
provider response, the first run returns 2 and stores two rows, the
second identical run returns 0 with the stored rows unchanged, and the
row count for instrument 1 goes from 0 to 2 and stays there. -/
theorem claim_C1_witness :
    ingest_by_symbol envAapl [] "AAPL" "1d" "1mo" =
      (.ok (([] : DB) ++ aaplQuotes.map (ingestedRow 1),
        aaplQuotes.length), [.clientCall, .storeInsert]) ∧
    ingest_by_symbol envAapl (([] : DB) ++ aaplQuotes.map (ingestedRow 1))
        "AAPL" "1d" "1mo" =
      (.ok (([] : DB) ++ aaplQuotes.map (ingestedRow 1), 0),
       [.clientCall, .storeInsert]) ∧
    countFor (([] : DB) ++ aaplQuotes.map (ingestedRow 1)) 1 =
      countFor ([] : DB) 1 + aaplQuotes.length :=
  claim_C1_idempotency envAapl [] "AAPL" "1d" "1mo" ⟨1, "AAPL", true⟩
    aaplQuotes (by rfl) (by rfl) (by decide) (by decide) (by decide)

end MDB
